import Mathlib

/-!
Verification of the price-tracker backend's alert-monitoring engine.

This file gives a shallow embedding of the JavaScript services
(`src/services/alertManager.js`, `src/services/finnhub.js`) and proves
properties of the embedded operations.  JavaScript `Map` and `Set` objects
are modelled as association lists / lists preserving insertion order, which
matches their iteration semantics.  Prices are modelled as rationals (the
code only compares prices; it performs no arithmetic on them in the
trigger path).  Wall-clock instants are epoch milliseconds as naturals.
Exceptions thrown inside a `try { } catch { }` block are modelled by
flattening the catch into the function's result; the sources of exceptions
that the code can encounter per alert (a malformed record at the start of
`checkAlert`, a rejected record-store write in `updateAlertLastTriggered`)
are supplied by an explicit failure oracle `Env`.
-/

/-- Lookup in a JavaScript `Map` modelled as an association list
(first binding wins; maps built by `mapSet`/`mapDelete` have unique keys). -/
def mapGet {α : Type} (m : List (String × α)) (k : String) : Option α :=
  match m with
  | [] => none
  | (k', v) :: rest => if k' = k then some v else mapGet rest k

/-- JavaScript `Map.set`: replace the first binding of `k` in place, or
append a new binding at the end (insertion order). -/
def mapSet {α : Type} (m : List (String × α)) (k : String) (v : α) :
    List (String × α) :=
  match m with
  | [] => [(k, v)]
  | (k', v') :: rest =>
    if k' = k then (k', v) :: rest else (k', v') :: mapSet rest k v

/-- JavaScript `Map.delete`: remove the binding of `k`. -/
def mapDelete {α : Type} (m : List (String × α)) (k : String) :
    List (String × α) :=
  match m with
  | [] => []
  | (k', v') :: rest => if k' = k then rest else (k', v') :: mapDelete rest k

/-- The key list of a modelled `Map`, in iteration (insertion) order. -/
def mapKeys {α : Type} (m : List (String × α)) : List String :=
  m.map (fun e => e.1)

/-- JavaScript `Set.add`: append if absent, no-op if present. -/
def setAdd (l : List String) (x : String) : List String :=
  if x ∈ l then l else l ++ [x]

/-- JavaScript `Set.delete`: remove the element (first occurrence; sets
built by `setAdd` have no duplicates). -/
def setDelete (l : List String) (x : String) : List String :=
  match l with
  | [] => []
  | y :: rest => if y = x then rest else y :: setDelete rest x

/-- Models JavaScript's `String.prototype.toUpperCase()` as a
character-wise uppercase map (the code only applies it to ASCII ticker
symbols, where this is exact). -/
def toUpperCase (s : String) : String :=
  ⟨s.data.map Char.toUpper⟩

theorem char_toUpper_idem (c : Char) : c.toUpper.toUpper = c.toUpper := by
  show Char.toUpper (Char.toUpper c) = Char.toUpper c
  unfold Char.toUpper
  by_cases h : 97 ≤ c.toNat ∧ c.toNat ≤ 122
  · rw [if_pos h]
    have hvalid : Nat.isValidChar (c.toNat - 32) := Or.inl (by omega)
    have htoNat : (Char.ofNat (c.toNat - 32)).toNat = c.toNat - 32 := by
      rw [Char.ofNat, dif_pos hvalid]
      rfl
    rw [if_neg]
    rw [htoNat]
    omega
  · rw [if_neg h, if_neg h]

theorem toUpperCase_idem (s : String) :
    toUpperCase (toUpperCase s) = toUpperCase s := by
  unfold toUpperCase
  refine congrArg String.mk ?_
  show (s.data.map Char.toUpper).map Char.toUpper = s.data.map Char.toUpper
  rw [List.map_map]
  exact List.map_congr_left (fun c _ => char_toUpper_idem c)

/-- An alert record (`price_alerts` row; fields used by the monitor). -/
structure Alert where
  id : String
  symbol : String
  target_value : ℚ
  direction : String
  last_triggered_at : Option Nat
  enabled : Bool
  deriving Repr, DecidableEq

/-- A price-cache entry: the object stored by
`handlePriceUpdate` in `this.priceCache` (alertManager.js:135-141). -/
structure PriceEntry where
  price : ℚ
  previousPrice : Option ℚ
  timestamp : Nat
  volume : ℚ
  updatedAt : Nat
  deriving Repr, DecidableEq

/-- Control messages sent upstream over the WebSocket (finnhub.js `send`). -/
inductive WsMsg where
  | subscribe (symbol : String)
  | unsubscribe (symbol : String)
  deriving Repr, DecidableEq

/-- State of `FinnhubWebSocketService` (finnhub.js).  Callbacks all point
at the monitor's `handlePriceUpdate`, so `priceCallbacks` keeps the key
set of the callback map only.  `sentMessages` is the trace of control
messages written to the socket. -/
structure FinnhubState where
  isConnected : Bool
  subscribedSymbols : List String
  priceCallbacks : List String
  sentMessages : List WsMsg
  deriving Repr, DecidableEq

/-- Observable per-alert effects of the tick path: a dispatched
notification (`sendAlertNotification` invoked), an error caught and logged
by a `catch`, or the warning logged by `removeAlert` when the id is not
found. -/
inductive Event where
  | notified (alertId : String) (currentPrice : ℚ)
  | errorLogged (alertId : String)
  | warnNotFound (alertId : String)
  deriving Repr, DecidableEq

/-- Failure oracle for the exceptions the tick path can encounter per
alert: `evalRaises` — the body of `checkAlert` throws at its start (e.g.
destructuring a malformed record, alertManager.js:165); `storeFails` — the
awaited `updateAlertLastTriggered` rejects (supabase.js:73-93 throws on a
store error). -/
structure Env where
  evalRaises : String → Bool
  storeFails : String → Bool

/-- Combined state of the monitor (`AlertManager`: `activeAlerts`,
`priceCache`) and the tick source adapter it drives. -/
structure Sys where
  activeAlerts : List (String × List Alert)
  priceCache : List (String × PriceEntry)
  finnhub : FinnhubState
  deriving Repr, DecidableEq

/-- The cooldown period: `5 * 60 * 1000` ms (alertManager.js:177). -/
def cooldownPeriod : Nat := 5 * 60 * 1000

/-- finnhub.js `send` (lines 198-204): writes the message if the socket is
open, otherwise warns and drops it. -/
def wsSend (st : FinnhubState) (msg : WsMsg) : FinnhubState :=
  if st.isConnected then { st with sentMessages := st.sentMessages ++ [msg] }
  else st

/-- finnhub.js `subscribeToSymbol` (lines 116-137). -/
def subscribeToSymbol (st : FinnhubState) (symbol : String) : FinnhubState :=
  if !st.isConnected then st
  else
    let formattedSymbol := toUpperCase symbol
    if formattedSymbol ∈ st.subscribedSymbols then st
    else
      let st1 := wsSend st (WsMsg.subscribe formattedSymbol)
      { st1 with subscribedSymbols := st1.subscribedSymbols ++ [formattedSymbol] }

/-- finnhub.js `unsubscribeFromSymbol` (lines 143-165). -/
def unsubscribeFromSymbol (st : FinnhubState) (symbol : String) : FinnhubState :=
  if !st.isConnected then st
  else
    let formattedSymbol := toUpperCase symbol
    if formattedSymbol ∉ st.subscribedSymbols then st
    else
      let st1 := wsSend st (WsMsg.unsubscribe formattedSymbol)
      { st1 with
          subscribedSymbols := setDelete st1.subscribedSymbols formattedSymbol,
          priceCallbacks := setDelete st1.priceCallbacks formattedSymbol }

/-- finnhub.js `onPriceUpdate` (lines 172-180): record the callback, then
subscribe if not already subscribed. -/
def onPriceUpdate (st : FinnhubState) (symbol : String) : FinnhubState :=
  let formattedSymbol := toUpperCase symbol
  let st1 := { st with priceCallbacks := setAdd st.priceCallbacks formattedSymbol }
  if formattedSymbol ∉ st1.subscribedSymbols then
    subscribeToSymbol st1 formattedSymbol
  else st1

/-- finnhub.js `removeCallback` (lines 186-192). -/
def removeCallback (st : FinnhubState) (symbol : String) : FinnhubState :=
  let formattedSymbol := toUpperCase symbol
  let st1 := { st with priceCallbacks := setDelete st.priceCallbacks formattedSymbol }
  unsubscribeFromSymbol st1 formattedSymbol

/-- finnhub.js `connect`'s `open` handler (lines 30-46): mark connected,
then call `subscribeToSymbol` for every symbol recorded as subscribed. -/
def wsOpenHandler (st : FinnhubState) : FinnhubState :=
  let st1 := { st with isConnected := true }
  st1.subscribedSymbols.foldl (fun s sym => subscribeToSymbol s sym) st1

/-- finnhub.js `connect`'s `close` handler (lines 65-69): mark
disconnected (the scheduled reconnect eventually re-runs the `open`
handler). -/
def wsCloseHandler (st : FinnhubState) : FinnhubState :=
  { st with isConnected := false }

/-- alertManager.js `checkEitherDirection` (lines 233-258). -/
def checkEitherDirection (priceCache : List (String × PriceEntry))
    (alert : Alert) (currentPrice : ℚ) : Bool :=
  match mapGet priceCache alert.symbol with
  | none => false
  | some cached =>
    match cached.previousPrice with
    | none => false
    | some previousPrice =>
      let previousAboveTarget := decide (previousPrice ≥ alert.target_value)
      let currentAboveTarget := decide (currentPrice ≥ alert.target_value)
      previousAboveTarget != currentAboveTarget

/-- alertManager.js `shouldTriggerAlert` (lines 209-225). -/
def shouldTriggerAlert (priceCache : List (String × PriceEntry))
    (alert : Alert) (currentPrice : ℚ) : Bool :=
  if alert.direction = "above" then decide (currentPrice ≥ alert.target_value)
  else if alert.direction = "below" then decide (currentPrice ≤ alert.target_value)
  else if alert.direction = "either" then
    checkEitherDirection priceCache alert currentPrice
  else false

/-- The tail of `checkAlert` after the trigger decision
(alertManager.js:186-197): notification dispatch (which swallows its own
transport failures), then the awaited store write; a rejected store write
jumps to the `catch` (line 198), so the in-memory
`alert.last_triggered_at = ...` assignment (line 197) is skipped. -/
def checkAlertTrigger (env : Env) (alert : Alert) (currentPrice : ℚ)
    (now : Nat) : Alert × List Event :=
  let notif := Event.notified alert.id currentPrice
  if env.storeFails alert.id then
    (alert, [notif, Event.errorLogged alert.id])
  else
    ({ alert with last_triggered_at := some now }, [notif])

/-- alertManager.js `checkAlert` (lines 163-201), with its `try`/`catch`
flattened: an exception at the start of the body (malformed record) or
from the awaited store write is caught and logged, and the function
returns normally. -/
def checkAlert (env : Env) (priceCache : List (String × PriceEntry))
    (alert : Alert) (currentPrice : ℚ) (now : Nat) : Alert × List Event :=
  if env.evalRaises alert.id then
    (alert, [Event.errorLogged alert.id])
  else if !(shouldTriggerAlert priceCache alert currentPrice) then
    (alert, [])
  else
    match alert.last_triggered_at with
    | some lastTriggered =>
      if now - lastTriggered < cooldownPeriod then (alert, [])
      else checkAlertTrigger env alert currentPrice now
    | none => checkAlertTrigger env alert currentPrice now

/-- The `for (const alert of symbolAlerts)` loop of `handlePriceUpdate`
(alertManager.js:149-151): each alert is checked in order against the
already-updated price cache; `checkAlert` mutates the alert in place, so
the bucket after the loop is the list of per-alert results. -/
def processBucket (env : Env) (priceCache : List (String × PriceEntry))
    (bucket : List Alert) (currentPrice : ℚ) (now : Nat) :
    List Alert × List Event :=
  match bucket with
  | [] => ([], [])
  | a :: rest =>
    let r := checkAlert env priceCache a currentPrice now
    let rs := processBucket env priceCache rest currentPrice now
    (r.1 :: rs.1, r.2 ++ rs.2)

/-- alertManager.js `handlePriceUpdate` (lines 128-155): write the new
price sample (moving current to previous) into the cache, then look up the
symbol's bucket and check each alert. -/
def handlePriceUpdate (env : Env) (sys : Sys) (symbol : String) (price : ℚ)
    (timestamp : Nat) (volume : ℚ) (now : Nat) : Sys × List Event :=
  let previousPrice := (mapGet sys.priceCache symbol).map (fun e => e.price)
  let newCache := mapSet sys.priceCache symbol
    { price := price, previousPrice := previousPrice, timestamp := timestamp,
      volume := volume, updatedAt := now }
  match mapGet sys.activeAlerts symbol with
  | none => ({ sys with priceCache := newCache }, [])
  | some symbolAlerts =>
    if symbolAlerts.isEmpty then ({ sys with priceCache := newCache }, [])
    else
      let r := processBucket env newCache symbolAlerts price now
      ({ sys with priceCache := newCache,
                  activeAlerts := mapSet sys.activeAlerts symbol r.1 }, r.2)

/-- alertManager.js `addAlert` (lines 358-374). -/
def addAlert (sys : Sys) (alert : Alert) : Sys :=
  let symbol := toUpperCase alert.symbol
  let sys1 :=
    if (mapGet sys.activeAlerts symbol).isSome then sys
    else
      { sys with activeAlerts := mapSet sys.activeAlerts symbol [],
                 finnhub := onPriceUpdate sys.finnhub symbol }
  match mapGet sys1.activeAlerts symbol with
  | some bucket =>
    { sys1 with activeAlerts := mapSet sys1.activeAlerts symbol (bucket ++ [alert]) }
  | none => sys1

/-- The `findIndex` + `splice(alertIndex, 1)` step of `removeAlert`
(alertManager.js:383-386): remove the first alert with the given id, or
report that the bucket does not contain it. -/
def spliceFirst (alerts : List Alert) (alertId : String) :
    Option (List Alert) :=
  match alerts with
  | [] => none
  | a :: rest =>
    if a.id = alertId then some rest
    else
      match spliceFirst rest alertId with
      | some rest' => some (a :: rest')
      | none => none

/-- The `for (const [symbol, alerts] of this.activeAlerts.entries())` loop
of `removeAlert` (alertManager.js:382-399): find the first bucket holding
the id, splice the alert out, and report the bucket's symbol and whether
it became empty (in which case its entry is deleted). -/
def removeAlertLoop (entries : List (String × List Alert)) (alertId : String) :
    Option (List (String × List Alert) × String × Bool) :=
  match entries with
  | [] => none
  | (symbol, alerts) :: rest =>
    match spliceFirst alerts alertId with
    | some alerts' =>
      if alerts'.isEmpty then some (rest, symbol, true)
      else some ((symbol, alerts') :: rest, symbol, false)
    | none =>
      match removeAlertLoop rest alertId with
      | some r => some ((symbol, alerts) :: r.1, r.2)
      | none => none

/-- alertManager.js `removeAlert` (lines 380-405). -/
def removeAlert (sys : Sys) (alertId : String) : Sys × List Event :=
  match removeAlertLoop sys.activeAlerts alertId with
  | none => (sys, [Event.warnNotFound alertId])
  | some r =>
    if r.2.2 then
      ({ sys with activeAlerts := r.1,
                  finnhub := removeCallback sys.finnhub r.2.1,
                  priceCache := mapDelete sys.priceCache r.2.1 }, [])
    else ({ sys with activeAlerts := r.1 }, [])

/-- One step of the `for (const alert of alerts)` grouping loop of
`loadActiveAlerts` (alertManager.js:85-93). -/
def groupStep (m : List (String × List Alert)) (alert : Alert) :
    List (String × List Alert) :=
  let symbol := toUpperCase alert.symbol
  let m1 := if (mapGet m symbol).isSome then m else mapSet m symbol []
  match mapGet m1 symbol with
  | some bucket => mapSet m1 symbol (bucket ++ [alert])
  | none => m1

/-- alertManager.js `loadActiveAlerts` (lines 77-102): clear the index and
regroup the fetched (enabled) alerts by canonical symbol.  The price cache
is untouched. -/
def loadActiveAlerts (sys : Sys) (fetched : List Alert) : Sys :=
  { sys with activeAlerts := fetched.foldl groupStep [] }

/-- alertManager.js `subscribeToActiveSymbols` (lines 107-119): register
the tick callback (and hence subscribe) for every indexed symbol. -/
def subscribeToActiveSymbols (sys : Sys) : Sys :=
  { sys with
      finnhub := (mapKeys sys.activeAlerts).foldl
        (fun f s => onPriceUpdate f s) sys.finnhub }

/-- alertManager.js `refreshAlerts` (lines 452-462): reload then
resubscribe; nothing is ever unsubscribed here. -/
def refreshAlerts (sys : Sys) (fetched : List Alert) : Sys :=
  subscribeToActiveSymbols (loadActiveAlerts sys fetched)

/-- The trigger condition exactly as the specification states it
(spec §4.1 "Trigger evaluation" and §8), used to compare
`shouldTriggerAlert` against the spec's words. -/
def triggerSpec (priceCache : List (String × PriceEntry)) (alert : Alert)
    (currentPrice : ℚ) : Prop :=
  (alert.direction = "above" ∧ currentPrice ≥ alert.target_value) ∨
  (alert.direction = "below" ∧ currentPrice ≤ alert.target_value) ∨
  (alert.direction = "either" ∧
    ∃ entry previousPrice,
      mapGet priceCache alert.symbol = some entry ∧
      entry.previousPrice = some previousPrice ∧
      ¬((previousPrice ≥ alert.target_value) ↔ (currentPrice ≥ alert.target_value)))

/-- Number of alerts with the given id in a bucket. -/
def countById (alerts : List Alert) (alertId : String) : Nat :=
  alerts.countP (fun a => a.id = alertId)

theorem mapGet_mapSet_self {α : Type} (m : List (String × α)) (k : String)
    (v : α) : mapGet (mapSet m k v) k = some v := by
  induction m with
  | nil => simp [mapGet, mapSet]
  | cons e rest ih =>
    obtain ⟨k', v'⟩ := e
    by_cases h : k' = k
    · simp [mapSet, mapGet, h]
    · simp [mapSet, mapGet, h, ih]

theorem mapKeys_cons {α : Type} (k0 : String) (v0 : α)
    (rest : List (String × α)) :
    mapKeys ((k0, v0) :: rest) = k0 :: mapKeys rest := rfl

theorem mapGet_mapSet_ne {α : Type} (m : List (String × α)) (k k' : String)
    (v : α) (h : k' ≠ k) : mapGet (mapSet m k v) k' = mapGet m k' := by
  induction m with
  | nil => simp [mapGet, mapSet, Ne.symm h]
  | cons e rest ih =>
    obtain ⟨k0, v0⟩ := e
    by_cases hk : k0 = k
    · subst hk
      simp [mapSet, mapGet, Ne.symm h]
    · by_cases hk' : k0 = k'
      · simp [mapSet, mapGet, hk, hk', h]
      · simp [mapSet, mapGet, hk, hk', ih]

theorem mapGet_mapDelete_ne {α : Type} (m : List (String × α)) (k k' : String)
    (h : k' ≠ k) : mapGet (mapDelete m k) k' = mapGet m k' := by
  induction m with
  | nil => simp [mapGet, mapDelete]
  | cons e rest ih =>
    obtain ⟨k0, v0⟩ := e
    by_cases hk : k0 = k
    · subst hk
      simp [mapDelete, mapGet, Ne.symm h]
    · by_cases hk' : k0 = k'
      · simp [mapDelete, mapGet, hk, hk', h]
      · simp [mapDelete, mapGet, hk, hk', ih]

theorem mapGet_eq_none_iff {α : Type} (m : List (String × α)) (k : String) :
    mapGet m k = none ↔ k ∉ mapKeys m := by
  induction m with
  | nil => simp [mapGet, mapKeys]
  | cons e rest ih =>
    obtain ⟨k0, v0⟩ := e
    rw [mapKeys_cons, List.mem_cons]
    by_cases hk : k0 = k
    · subst hk
      simp [mapGet]
    · simp [mapGet, hk, Ne.symm hk, ih]

theorem mapGet_mapDelete_self {α : Type} (m : List (String × α)) (k : String)
    (h : (mapKeys m).Nodup) : mapGet (mapDelete m k) k = none := by
  induction m with
  | nil => simp [mapDelete, mapGet]
  | cons e rest ih =>
    obtain ⟨k0, v0⟩ := e
    rw [mapKeys_cons, List.nodup_cons] at h
    by_cases hk : k0 = k
    · subst hk
      simp only [mapDelete, if_pos rfl]
      exact (mapGet_eq_none_iff rest k0).mpr h.1
    · simp [mapDelete, mapGet, hk, ih h.2]

/-- A failure oracle with no failures (the happy path). -/
def envNoFail : Env := ⟨fun _ => false, fun _ => false⟩

/-- A failure oracle where the record-store write for alert "a1" rejects. -/
def envStoreFailA1 : Env := ⟨fun _ => false, fun i => decide (i = "a1")⟩

/-- A failure oracle where evaluating alert "a1" throws (malformed record). -/
def envRaiseA1 : Env := ⟨fun i => decide (i = "a1"), fun _ => false⟩

/-- A concrete enabled `above` alert at target 10. -/
def alertAbove10 : Alert :=
  { id := "a1", symbol := "BTC", target_value := 10, direction := "above",
    last_triggered_at := none, enabled := true }

/-- A concrete enabled `above` alert at target 45000 on BTC. -/
def alertBTC : Alert :=
  { id := "b1", symbol := "BTC", target_value := 45000, direction := "above",
    last_triggered_at := none, enabled := true }

/-- A connected adapter with nothing subscribed. -/
def finConn : FinnhubState :=
  { isConnected := true, subscribedSymbols := [], priceCallbacks := [],
    sentMessages := [] }

/-- An empty, connected system. -/
def sysConn : Sys := { activeAlerts := [], priceCache := [], finnhub := finConn }

/-- C7: `refreshAlerts` (Reload) leaves every price cache entry unchanged:
`loadActiveAlerts` only rebuilds the symbol-to-alerts index and
`subscribeToActiveSymbols` only touches the tick source adapter, so the
whole price cache — hence every entry's price, previous price, timestamp
and volume — is identical after the call, and the previous-price state
used by `either` alerts is never reset by a reload. -/
theorem c7_reload_preserves_price_cache (sys : Sys) (fetched : List Alert) :
    (refreshAlerts sys fetched).priceCache = sys.priceCache := rfl

theorem handlePriceUpdate_priceCache (env : Env) (sys : Sys) (symbol : String)
    (price : ℚ) (timestamp : Nat) (volume : ℚ) (now : Nat) :
    ((handlePriceUpdate env sys symbol price timestamp volume now).1).priceCache =
      mapSet sys.priceCache symbol
        { price := price,
          previousPrice := (mapGet sys.priceCache symbol).map (fun e => e.price),
          timestamp := timestamp, volume := volume, updatedAt := now } := by
  unfold handlePriceUpdate
  cases hma : mapGet sys.activeAlerts symbol with
  | none => simp [hma]
  | some bucket =>
    by_cases hb : bucket.isEmpty <;> simp [hma, hb]

theorem checkEitherDirection_eq_true (pc : List (String × PriceEntry))
    (alert : Alert) (P : ℚ) :
    checkEitherDirection pc alert P = true ↔
      ∃ entry P0, mapGet pc alert.symbol = some entry ∧
        entry.previousPrice = some P0 ∧
        ¬(P0 ≥ alert.target_value ↔ P ≥ alert.target_value) := by
  unfold checkEitherDirection
  cases hm : mapGet pc alert.symbol with
  | none => simp
  | some cached =>
    cases hp : cached.previousPrice with
    | none => simp [hp]
    | some P0 => simp [hp, bne_iff_ne, decide_eq_decide]

/-- C1: the trigger condition of `shouldTriggerAlert` is exactly the
claim's: an `above` alert satisfies it iff P ≥ T, a `below` alert iff
P ≤ T, an `either` alert iff the price cache holds a previous price P₀ for
the alert's symbol with (P₀ ≥ T) ≠ (P ≥ T), and any other direction value
never satisfies it; moreover on the first tick ever seen for a symbol
(no cache entry) the sample written by `handlePriceUpdate` carries no
previous price, so an `either` alert never satisfies the trigger condition
against the cache of that first tick. -/
theorem c1_trigger_semantics :
    (∀ (priceCache : List (String × PriceEntry)) (alert : Alert)
        (currentPrice : ℚ),
        shouldTriggerAlert priceCache alert currentPrice = true ↔
          triggerSpec priceCache alert currentPrice) ∧
    (∀ (env : Env) (sys : Sys) (symbol : String) (price : ℚ)
        (timestamp : Nat) (volume : ℚ) (now : Nat) (alert : Alert)
        (currentPrice : ℚ),
        mapGet sys.priceCache symbol = none →
        alert.symbol = symbol →
        alert.direction = "either" →
        shouldTriggerAlert
          ((handlePriceUpdate env sys symbol price timestamp volume now).1).priceCache
          alert currentPrice = false) := by
  constructor
  · intro pc alert P
    unfold shouldTriggerAlert
    by_cases ha : alert.direction = "above"
    · rw [if_pos ha]
      unfold triggerSpec
      constructor
      · intro h
        exact Or.inl ⟨ha, of_decide_eq_true h⟩
      · rintro (⟨_, hp⟩ | ⟨hb, _⟩ | ⟨hb, _⟩)
        · exact decide_eq_true hp
        · exact absurd (ha.symm.trans hb) (by decide)
        · exact absurd (ha.symm.trans hb) (by decide)
    · rw [if_neg ha]
      by_cases hb : alert.direction = "below"
      · rw [if_pos hb]
        unfold triggerSpec
        constructor
        · intro h
          exact Or.inr (Or.inl ⟨hb, of_decide_eq_true h⟩)
        · rintro (⟨hd, _⟩ | ⟨_, hp⟩ | ⟨hd, _⟩)
          · exact absurd (hd.symm.trans hb) (by decide)
          · exact decide_eq_true hp
          · exact absurd (hd.symm.trans hb) (by decide)
      · by_cases he : alert.direction = "either"
        · rw [if_neg hb, if_pos he, checkEitherDirection_eq_true]
          unfold triggerSpec
          constructor
          · intro h
            exact Or.inr (Or.inr ⟨he, h⟩)
          · rintro (⟨hd, _⟩ | ⟨hd, _⟩ | ⟨_, h⟩)
            · exact absurd (he.symm.trans hd) (by decide)
            · exact absurd (he.symm.trans hd) (by decide)
            · exact h
        · rw [if_neg hb, if_neg he]
          unfold triggerSpec
          constructor
          · intro h
            exact absurd h (by simp)
          · rintro (⟨hd, _⟩ | ⟨hd, _⟩ | ⟨hd, _⟩)
            · exact absurd hd ha
            · exact absurd hd hb
            · exact absurd hd he
  · intro env sys symbol price timestamp volume now alert P hnone hsym hdir
    have h1 : ¬ alert.direction = "above" := by rw [hdir]; decide
    have h2 : ¬ alert.direction = "below" := by rw [hdir]; decide
    unfold shouldTriggerAlert
    rw [if_neg h1, if_neg h2, if_pos hdir, Bool.eq_false_iff]
    intro hcontra
    obtain ⟨entry, P0, hme, hpe, _⟩ :=
      (checkEitherDirection_eq_true _ _ _).mp hcontra
    rw [handlePriceUpdate_priceCache, hsym, mapGet_mapSet_self, hnone] at hme
    injection hme with hent
    rw [← hent] at hpe
    simp at hpe

/-- A concrete enabled `either` alert at target 10 on BTC. -/
def alertEitherBTC : Alert :=
  { id := "e1", symbol := "BTC", target_value := 10, direction := "either",
    last_triggered_at := none, enabled := true }

theorem c1_witness :
    shouldTriggerAlert
      ((handlePriceUpdate envNoFail sysConn "BTC" 100 1 2 3).1).priceCache
      alertEitherBTC 100 = false :=
  c1_trigger_semantics.2 envNoFail sysConn "BTC" 100 1 2 3 alertEitherBTC 100
    rfl rfl rfl

theorem shouldTriggerAlert_set_last (pc : List (String × PriceEntry))
    (alert : Alert) (t : Option Nat) (P : ℚ) :
    shouldTriggerAlert pc { alert with last_triggered_at := t } P =
      shouldTriggerAlert pc alert P := rfl

/-- C2: cooldown idempotence per alert, along `checkAlert` with a healthy
store.  A first qualifying tick at time t₁ dispatches one notification and
stamps the in-memory alert with t₁; a second qualifying tick at t₂ within
the 5-minute window measured from t₁ is suppressed (no notification, alert
unchanged); a further qualifying tick at t₃ with the window elapsed
(t₃ − t₁ ≥ cooldown) dispatches a second notification. -/
theorem c2_cooldown_idempotence (env : Env)
    (cache1 cache2 cache3 : List (String × PriceEntry)) (alert : Alert)
    (p1 p2 p3 : ℚ) (t1 t2 t3 : Nat)
    (hraise : env.evalRaises alert.id = false)
    (hstore : env.storeFails alert.id = false)
    (hfresh : alert.last_triggered_at = none)
    (hq1 : shouldTriggerAlert cache1 alert p1 = true)
    (hq2 : shouldTriggerAlert cache2 alert p2 = true)
    (hq3 : shouldTriggerAlert cache3 alert p3 = true)
    (hwithin : t2 - t1 < cooldownPeriod)
    (helapsed : cooldownPeriod ≤ t3 - t1) :
    checkAlert env cache1 alert p1 t1 =
      ({ alert with last_triggered_at := some t1 },
       [Event.notified alert.id p1]) ∧
    checkAlert env cache2 { alert with last_triggered_at := some t1 } p2 t2 =
      ({ alert with last_triggered_at := some t1 }, []) ∧
    checkAlert env cache3 { alert with last_triggered_at := some t1 } p3 t3 =
      ({ alert with last_triggered_at := some t3 },
       [Event.notified alert.id p3]) := by
  refine ⟨?_, ?_, ?_⟩
  · unfold checkAlert
    rw [hraise, hq1, hfresh]
    unfold checkAlertTrigger
    rw [hstore]
    rfl
  · unfold checkAlert
    rw [shouldTriggerAlert_set_last, hraise, hq2]
    simp only [Bool.not_true, Bool.false_eq_true, if_false, if_neg]
    rw [if_pos hwithin]
  · unfold checkAlert
    rw [shouldTriggerAlert_set_last, hraise, hq3]
    simp only [Bool.not_true, Bool.false_eq_true, if_false, if_neg]
    rw [if_neg (by omega : ¬ t3 - t1 < cooldownPeriod)]
    unfold checkAlertTrigger
    rw [hstore]
    rfl

theorem c2_witness :
    checkAlert envNoFail [] alertAbove10 15 0 =
      ({ alertAbove10 with last_triggered_at := some 0 },
       [Event.notified "a1" 15]) ∧
    checkAlert envNoFail [] { alertAbove10 with last_triggered_at := some 0 }
        16 1 =
      ({ alertAbove10 with last_triggered_at := some 0 }, []) ∧
    checkAlert envNoFail [] { alertAbove10 with last_triggered_at := some 0 }
        17 300000 =
      ({ alertAbove10 with last_triggered_at := some 300000 },
       [Event.notified "a1" 17]) :=
  c2_cooldown_idempotence envNoFail [] [] [] alertAbove10 15 16 17 0 1 300000
    rfl rfl rfl (by decide) (by decide) (by decide) (by decide) (by decide)

/-- C3 counterexample: the claim asserts the in-memory last-triggered
timestamp is set even when the durable store write fails, and set before
that write completes.  In the code the write is awaited at
alertManager.js:194 and the in-memory assignment at line 197 runs after
it; when the write rejects the `catch` at line 198 skips the assignment.
Concretely: alert "a1" triggers (price 15 ≥ target 10), the notification
is dispatched, the store write fails, and the in-memory
`last_triggered_at` stays `none`. -/
theorem c3_claim_counterexample :
    (checkAlert envStoreFailA1 [] alertAbove10 15 0).2 =
      [Event.notified "a1" 15, Event.errorLogged "a1"] ∧
    ((checkAlert envStoreFailA1 [] alertAbove10 15 0).1).last_triggered_at =
      none := by
  constructor <;> rfl

/-- C3 (amended): after a qualifying, non-cooled-down evaluation the
notification is dispatched first; the durable write is awaited inside the
tick path and its failure is swallowed there (caught and logged, never
propagated); the in-memory last-triggered timestamp is updated only when
the durable write succeeds — on a store failure it is left unchanged, so
the in-memory suppression is not established. -/
theorem c3_store_write_semantics (env : Env)
    (priceCache : List (String × PriceEntry)) (alert : Alert)
    (currentPrice : ℚ) (now : Nat)
    (hraise : env.evalRaises alert.id = false)
    (htrig : shouldTriggerAlert priceCache alert currentPrice = true)
    (hfresh : alert.last_triggered_at = none) :
    (env.storeFails alert.id = true →
        checkAlert env priceCache alert currentPrice now =
          (alert, [Event.notified alert.id currentPrice,
                   Event.errorLogged alert.id])) ∧
    (env.storeFails alert.id = false →
        checkAlert env priceCache alert currentPrice now =
          ({ alert with last_triggered_at := some now },
           [Event.notified alert.id currentPrice])) := by
  have h1 : checkAlert env priceCache alert currentPrice now =
      checkAlertTrigger env alert currentPrice now := by
    unfold checkAlert
    rw [hraise, htrig, hfresh]
    rfl
  constructor <;> intro h <;> rw [h1] <;> unfold checkAlertTrigger <;>
    rw [h] <;> rfl

theorem c3_witness :
    checkAlert envStoreFailA1 [] alertAbove10 16 7 =
      (alertAbove10, [Event.notified "a1" 16, Event.errorLogged "a1"]) :=
  (c3_store_write_semantics envStoreFailA1 [] alertAbove10 16 7
    rfl (by decide) rfl).1 (by decide)

/-- The adapter state subscribed to AAPL with an open connection. -/
def finAAPL : FinnhubState :=
  { isConnected := true, subscribedSymbols := ["AAPL"],
    priceCallbacks := ["AAPL"], sentMessages := [] }

/-- C5 (code bug): after a disconnect (close event) with AAPL subscribed,
the reconnect's open handler — which logs that it is resubscribing —
sends no subscribe control message at all: every `subscribeToSymbol` call
returns early at the already-subscribed guard (finnhub.js:124), so the
fresh connection ends up with zero upstream subscriptions; and a
`subscribeToSymbol` call while the connection is closed records nothing
(MSFT is not added to `subscribedSymbols`), so it is not retried on the
next reconnect either. -/
theorem c5_reconnect_resubscribe_is_noop :
    (wsOpenHandler (wsCloseHandler finAAPL)).isConnected = true ∧
    (wsOpenHandler (wsCloseHandler finAAPL)).subscribedSymbols = ["AAPL"] ∧
    (wsOpenHandler (wsCloseHandler finAAPL)).sentMessages = [] ∧
    (subscribeToSymbol (wsCloseHandler finAAPL) "MSFT").subscribedSymbols =
      ["AAPL"] ∧
    (subscribeToSymbol (wsCloseHandler finAAPL) "MSFT").sentMessages = [] := by
  refine ⟨rfl, ?_, ?_, rfl, rfl⟩ <;> rfl

/-- C8: per-alert error isolation in the tick path.  The bucket loop of
`handlePriceUpdate` evaluates every alert independently — its result is a
pointwise map of `checkAlert` over the bucket, so one alert's outcome
(including a thrown evaluation error) cannot affect another's — and a
per-alert evaluation error is caught inside `checkAlert`, which returns
normally with the alert unchanged and the error merely logged, so no
per-alert error propagates out of the tick-handling path. -/
theorem c8_per_alert_isolation :
    (∀ (env : Env) (priceCache : List (String × PriceEntry))
        (bucket : List Alert) (currentPrice : ℚ) (now : Nat),
        processBucket env priceCache bucket currentPrice now =
          (bucket.map
            (fun a => (checkAlert env priceCache a currentPrice now).1),
           (bucket.map
            (fun a => (checkAlert env priceCache a currentPrice now).2)).flatten)) ∧
    (∀ (env : Env) (priceCache : List (String × PriceEntry)) (alert : Alert)
        (currentPrice : ℚ) (now : Nat),
        env.evalRaises alert.id = true →
        checkAlert env priceCache alert currentPrice now =
          (alert, [Event.errorLogged alert.id])) := by
  constructor
  · intro env pc bucket P now
    induction bucket with
    | nil => simp [processBucket]
    | cons a rest ih => simp [processBucket, ih]
  · intro env pc alert P now h
    unfold checkAlert
    rw [h]
    rfl

theorem c8_witness :
    checkAlert envRaiseA1 [] alertAbove10 15 0 =
      (alertAbove10, [Event.errorLogged "a1"]) :=
  c8_per_alert_isolation.2 envRaiseA1 [] alertAbove10 15 0 (by decide)

theorem spliceFirst_eq_none (alerts : List Alert) (alertId : String) :
    spliceFirst alerts alertId = none ↔ ∀ a ∈ alerts, a.id ≠ alertId := by
  induction alerts with
  | nil => simp [spliceFirst]
  | cons a rest ih =>
    simp only [spliceFirst]
    by_cases h : a.id = alertId
    · rw [if_pos h]
      constructor
      · intro hc
        cases hc
      · intro hall
        exact absurd h (hall a (List.mem_cons_self a rest))
    · rw [if_neg h]
      cases hs : spliceFirst rest alertId with
      | none =>
        constructor
        · intro _ x hx
          rcases List.mem_cons.mp hx with hx | hx
          · rw [hx]; exact h
          · exact (ih.mp hs) x hx
        · intro _
          rfl
      | some r =>
        constructor
        · intro hc
          cases hc
        · intro hall
          have hnone := ih.mpr (fun x hx => hall x (List.mem_cons_of_mem a hx))
          rw [hs] at hnone
          cases hnone

theorem removeAlertLoop_append_none (pre rest : List (String × List Alert))
    (alertId : String)
    (hpre : ∀ e ∈ pre, ∀ a ∈ e.2, a.id ≠ alertId) :
    removeAlertLoop (pre ++ rest) alertId =
      (removeAlertLoop rest alertId).map (fun r => (pre ++ r.1, r.2)) := by
  induction pre with
  | nil =>
    rw [List.nil_append]
    cases h : removeAlertLoop rest alertId with
    | none => rfl
    | some r => rfl
  | cons e pre' ih =>
    obtain ⟨s, alerts⟩ := e
    have hs : spliceFirst alerts alertId = none :=
      (spliceFirst_eq_none _ _).mpr
        (fun a ha => hpre (s, alerts) (List.mem_cons_self _ _) a ha)
    rw [List.cons_append]
    simp only [removeAlertLoop, hs]
    rw [ih (fun e he => hpre e (List.mem_cons_of_mem _ he))]
    cases removeAlertLoop rest alertId with
    | none => rfl
    | some r => rfl

theorem removeAlertLoop_cons_found (symbol : String) (alerts : List Alert)
    (rest : List (String × List Alert)) (alertId : String)
    (alerts' : List Alert) (h : spliceFirst alerts alertId = some alerts') :
    removeAlertLoop ((symbol, alerts) :: rest) alertId =
      if alerts'.isEmpty then some (rest, symbol, true)
      else some ((symbol, alerts') :: rest, symbol, false) := by
  simp only [removeAlertLoop, h]

theorem removeAlertLoop_eq_none (entries : List (String × List Alert))
    (alertId : String)
    (h : ∀ e ∈ entries, ∀ a ∈ e.2, a.id ≠ alertId) :
    removeAlertLoop entries alertId = none := by
  induction entries with
  | nil => rfl
  | cons e rest ih =>
    obtain ⟨s, alerts⟩ := e
    have hs : spliceFirst alerts alertId = none :=
      (spliceFirst_eq_none _ _).mpr
        (fun a ha => h (s, alerts) (List.mem_cons_self _ _) a ha)
    simp only [removeAlertLoop, hs,
      ih (fun e he => h e (List.mem_cons_of_mem _ he))]

theorem removeAlertLoop_symbol_mem (entries : List (String × List Alert))
    (alertId : String) (r : List (String × List Alert) × String × Bool)
    (h : removeAlertLoop entries alertId = some r) :
    r.2.1 ∈ mapKeys entries := by
  induction entries generalizing r with
  | nil => cases h
  | cons e rest ih =>
    obtain ⟨s, alerts⟩ := e
    rw [mapKeys_cons, List.mem_cons]
    cases hs : spliceFirst alerts alertId with
    | some alerts' =>
      rw [removeAlertLoop_cons_found s alerts rest alertId alerts' hs] at h
      by_cases he : alerts'.isEmpty
      · rw [if_pos he] at h
        injection h with h1
        rw [← h1]
        exact Or.inl rfl
      · rw [if_neg he] at h
        injection h with h1
        rw [← h1]
        exact Or.inl rfl
    | none =>
      simp only [removeAlertLoop, hs] at h
      cases hr : removeAlertLoop rest alertId with
      | none =>
        rw [hr] at h
        cases h
      | some r' =>
        rw [hr] at h
        injection h with h1
        rw [← h1]
        exact Or.inr (ih r' hr)

theorem removeAlert_not_found (sys : Sys) (alertId : String)
    (h : ∀ e ∈ sys.activeAlerts, ∀ a ∈ e.2, a.id ≠ alertId) :
    removeAlert sys alertId = (sys, [Event.warnNotFound alertId]) := by
  unfold removeAlert
  rw [removeAlertLoop_eq_none sys.activeAlerts alertId h]

theorem removeAlert_found (sys : Sys) (alertId : String)
    (pre post : List (String × List Alert)) (s : String)
    (alerts alerts' : List Alert)
    (hsplit : sys.activeAlerts = pre ++ (s, alerts) :: post)
    (hpre : ∀ e ∈ pre, ∀ a ∈ e.2, a.id ≠ alertId)
    (hsplice : spliceFirst alerts alertId = some alerts') :
    removeAlert sys alertId =
      if alerts'.isEmpty then
        ({ sys with activeAlerts := pre ++ post,
                    priceCache := mapDelete sys.priceCache s,
                    finnhub := removeCallback sys.finnhub s }, [])
      else ({ sys with activeAlerts := pre ++ (s, alerts') :: post }, []) := by
  unfold removeAlert
  rw [hsplit, removeAlertLoop_append_none pre _ alertId hpre,
      removeAlertLoop_cons_found s alerts post alertId alerts' hsplice]
  by_cases he : alerts'.isEmpty <;> simp [he]

/-- C10: `handlePriceUpdate` writes the new price sample into the cache
before looking up the symbol's alert bucket, so a tick for a symbol with
no indexed alerts still creates or updates a cache entry (and the tick is
otherwise a no-op); consequently the cache's key set need not stay inside
the index's key set, and `removeAlert` never evicts the cache entry of a
symbol that has no bucket (its eviction only fires for the bucket it
emptied), so a trailing tick's re-created entry is never removed by the
removal path. -/
theorem c10_cache_written_before_bucket_lookup :
    (∀ (env : Env) (sys : Sys) (symbol : String) (price : ℚ)
        (timestamp : Nat) (volume : ℚ) (now : Nat),
        mapGet
            ((handlePriceUpdate env sys symbol price timestamp volume now).1).priceCache
            symbol =
          some { price := price,
                 previousPrice :=
                   (mapGet sys.priceCache symbol).map (fun e => e.price),
                 timestamp := timestamp, volume := volume,
                 updatedAt := now }) ∧
    (∀ (env : Env) (sys : Sys) (symbol : String) (price : ℚ)
        (timestamp : Nat) (volume : ℚ) (now : Nat),
        mapGet sys.activeAlerts symbol = none →
        ((handlePriceUpdate env sys symbol price timestamp volume now).1).activeAlerts =
          sys.activeAlerts ∧
        (handlePriceUpdate env sys symbol price timestamp volume now).2 = []) ∧
    (∀ (sys : Sys) (alertId symbol : String),
        (∀ e ∈ sys.activeAlerts, e.1 ≠ symbol) →
        mapGet ((removeAlert sys alertId).1).priceCache symbol =
          mapGet sys.priceCache symbol) := by
  refine ⟨?_, ?_, ?_⟩
  · intro env sys symbol price ts vol now
    rw [handlePriceUpdate_priceCache, mapGet_mapSet_self]
  · intro env sys symbol price ts vol now h
    unfold handlePriceUpdate
    simp [h]
  · intro sys alertId symbol h
    unfold removeAlert
    cases hr : removeAlertLoop sys.activeAlerts alertId with
    | none => rfl
    | some r =>
      have hmem : r.2.1 ∈ mapKeys sys.activeAlerts :=
        removeAlertLoop_symbol_mem _ _ r hr
      have hne : symbol ≠ r.2.1 := by
        intro hcontra
        obtain ⟨e, he, he1⟩ := List.mem_map.mp hmem
        exact h e he (he1.trans hcontra.symm)
      by_cases hb : r.2.2 = true
      · simp only [hb, if_true]
        exact mapGet_mapDelete_ne _ _ _ hne
      · simp [hb]

theorem c10_witness :
    ((handlePriceUpdate envNoFail sysConn "BTC" 5 1 2 3).1).activeAlerts =
      sysConn.activeAlerts ∧
    (handlePriceUpdate envNoFail sysConn "BTC" 5 1 2 3).2 = [] :=
  c10_cache_written_before_bucket_lookup.2.1 envNoFail sysConn "BTC" 5 1 2 3 rfl

/-- C6: `removeAlert` takes only an identifier and searches every bucket
for it.  If no bucket holds the id the call returns with the whole system
unchanged and only a warning logged.  If a bucket holds it, the first
matching alert is spliced out of that bucket; when the bucket becomes
empty its index entry is deleted, the symbol's callback is removed (which
unsubscribes it upstream), and the symbol's price cache entry is evicted —
so the cache holds no previous price for that symbol afterwards — while
`addAlert` never touches the price cache, so a subsequent AddAlert for the
same symbol starts with no previous price. -/
theorem c6_removeAlert_behavior (sys : Sys) (alertId : String) :
    ((∀ e ∈ sys.activeAlerts, ∀ a ∈ e.2, a.id ≠ alertId) →
        removeAlert sys alertId = (sys, [Event.warnNotFound alertId])) ∧
    (∀ (pre post : List (String × List Alert)) (s : String)
        (alerts alerts' : List Alert),
        sys.activeAlerts = pre ++ (s, alerts) :: post →
        (∀ e ∈ pre, ∀ a ∈ e.2, a.id ≠ alertId) →
        spliceFirst alerts alertId = some alerts' →
        (alerts' ≠ [] →
            removeAlert sys alertId =
              ({ sys with activeAlerts := pre ++ (s, alerts') :: post },
               [])) ∧
        (alerts' = [] →
            removeAlert sys alertId =
              ({ sys with activeAlerts := pre ++ post,
                          priceCache := mapDelete sys.priceCache s,
                          finnhub := removeCallback sys.finnhub s }, []) ∧
            ((mapKeys sys.priceCache).Nodup →
                mapGet ((removeAlert sys alertId).1).priceCache s = none))) ∧
    (∀ (sys2 : Sys) (a2 : Alert),
        (addAlert sys2 a2).priceCache = sys2.priceCache) := by
  refine ⟨removeAlert_not_found sys alertId, ?_, ?_⟩
  · intro pre post s alerts alerts' hsplit hpre hsplice
    have hfound :=
      removeAlert_found sys alertId pre post s alerts alerts' hsplit hpre hsplice
    constructor
    · intro hne
      cases halerts : alerts' with
      | nil => exact absurd halerts hne
      | cons x t =>
        subst halerts
        rw [hfound]
        rfl
    · intro hnil
      subst hnil
      have heq : removeAlert sys alertId =
          ({ sys with activeAlerts := pre ++ post,
                      priceCache := mapDelete sys.priceCache s,
                      finnhub := removeCallback sys.finnhub s }, []) := by
        rw [hfound]
        rfl
      refine ⟨heq, ?_⟩
      intro hnodup
      rw [heq]
      exact mapGet_mapDelete_self _ _ hnodup
  · intro sys2 a2
    unfold addAlert
    dsimp only
    split <;> split <;> rfl

/-- A cache entry for BTC. -/
def entryBTC : PriceEntry :=
  { price := 45000, previousPrice := none, timestamp := 1, volume := 2,
    updatedAt := 3 }

/-- A connected adapter subscribed to BTC. -/
def finBTC : FinnhubState :=
  { isConnected := true, subscribedSymbols := ["BTC"],
    priceCallbacks := ["BTC"], sentMessages := [] }

/-- A system monitoring one BTC alert with a cached BTC price. -/
def sysOne : Sys :=
  { activeAlerts := [("BTC", [alertBTC])],
    priceCache := [("BTC", entryBTC)], finnhub := finBTC }

theorem c6_witness :
    mapGet ((removeAlert sysOne "b1").1).priceCache "BTC" = none :=
  (((c6_removeAlert_behavior sysOne "b1").2.1 [] [] "BTC" [alertBTC] []
      rfl (by simp) rfl).2 rfl).2 (by decide)

theorem countById_spliceFirst (alerts alerts' : List Alert)
    (alertId : String) (h : spliceFirst alerts alertId = some alerts') :
    countById alerts' alertId + 1 = countById alerts alertId := by
  induction alerts generalizing alerts' with
  | nil => cases h
  | cons a rest ih =>
    simp only [spliceFirst] at h
    by_cases ha : a.id = alertId
    · rw [if_pos ha] at h
      injection h with h1
      subst h1
      simp [countById, List.countP_cons, ha]
    · rw [if_neg ha] at h
      cases hs : spliceFirst rest alertId with
      | none =>
        rw [hs] at h
        cases h
      | some r =>
        rw [hs] at h
        injection h with h1
        subst h1
        have h2 := ih r hs
        simp only [countById, List.countP_cons, ha] at h2 ⊢
        simp [ha]
        omega

/-- C9: `addAlert` performs no duplicate check — when the alert's canonical
symbol already has a bucket, the alert is appended unconditionally, so an
alert already present in the bucket is indexed a second time (its id then
occurs at least twice); and a single `removeAlert` of that id splices out
only the first matching copy (the bucket keeps exactly one fewer copy of
the id, so a duplicate remains indexed). -/
theorem c9_addAlert_no_duplicate_check (sys : Sys) (a : Alert) :
    (∀ bucket, mapGet sys.activeAlerts (toUpperCase a.symbol) = some bucket →
        a ∈ bucket →
        mapGet (addAlert sys a).activeAlerts (toUpperCase a.symbol) =
          some (bucket ++ [a]) ∧
        2 ≤ countById (bucket ++ [a]) a.id) ∧
    (∀ (alertId : String) (pre post : List (String × List Alert))
        (s : String) (alerts alerts' : List Alert),
        sys.activeAlerts = pre ++ (s, alerts) :: post →
        (∀ e ∈ pre, ∀ x ∈ e.2, x.id ≠ alertId) →
        spliceFirst alerts alertId = some alerts' →
        alerts' ≠ [] →
        (removeAlert sys alertId).1.activeAlerts =
          pre ++ (s, alerts') :: post ∧
        countById alerts' alertId + 1 = countById alerts alertId) := by
  constructor
  · intro bucket hb ha
    constructor
    · unfold addAlert
      dsimp only
      rw [hb]
      simp only [Option.isSome_some, if_true, hb]
      exact mapGet_mapSet_self _ _ _
    · have h1 : 0 < countById bucket a.id := by
        unfold countById
        rw [List.countP_pos_iff]
        exact ⟨a, ha, by simp⟩
      have h2 : countById (bucket ++ [a]) a.id =
          countById bucket a.id + countById [a] a.id := by
        unfold countById
        rw [List.countP_append]
      have h3 : countById [a] a.id = 1 := by
        unfold countById
        simp
      omega
  · intro alertId pre post s alerts alerts' hsplit hpre hsplice hne
    have hfound :=
      removeAlert_found sys alertId pre post s alerts alerts' hsplit hpre hsplice
    constructor
    · cases halerts : alerts' with
      | nil => exact absurd halerts hne
      | cons x t =>
        subst halerts
        rw [hfound]
        rfl
    · exact countById_spliceFirst alerts alerts' alertId hsplice

theorem c9_witness :
    mapGet (addAlert sysOne alertBTC).activeAlerts
        (toUpperCase alertBTC.symbol) =
      some [alertBTC, alertBTC] ∧
    2 ≤ countById [alertBTC, alertBTC] alertBTC.id :=
  (c9_addAlert_no_duplicate_check sysOne alertBTC).1 [alertBTC]
    (by decide) (by decide)

theorem wsSend_isConnected (st : FinnhubState) (msg : WsMsg) :
    (wsSend st msg).isConnected = st.isConnected := by
  unfold wsSend
  split <;> rfl

theorem wsSend_subscribedSymbols (st : FinnhubState) (msg : WsMsg) :
    (wsSend st msg).subscribedSymbols = st.subscribedSymbols := by
  unfold wsSend
  split <;> rfl

theorem subscribeToSymbol_isConnected (st : FinnhubState) (k : String) :
    (subscribeToSymbol st k).isConnected = st.isConnected := by
  unfold subscribeToSymbol
  dsimp only
  split
  · rfl
  · split
    · rfl
    · exact wsSend_isConnected st _

theorem onPriceUpdate_isConnected (st : FinnhubState) (k : String) :
    (onPriceUpdate st k).isConnected = st.isConnected := by
  unfold onPriceUpdate
  dsimp only
  split
  · rw [subscribeToSymbol_isConnected]
  · rfl

theorem mem_subscribed_subscribeToSymbol (st : FinnhubState) (k x : String)
    (hconn : st.isConnected = true) :
    x ∈ (subscribeToSymbol st k).subscribedSymbols ↔
      x ∈ st.subscribedSymbols ∨ x = toUpperCase k := by
  unfold subscribeToSymbol
  rw [hconn]
  by_cases hmem : toUpperCase k ∈ st.subscribedSymbols
  · simp only [Bool.not_true, Bool.false_eq_true, if_false, if_pos hmem]
    constructor
    · exact Or.inl
    · rintro (h | h)
      · exact h
      · rw [h]
        exact hmem
  · simp only [Bool.not_true, Bool.false_eq_true, if_false, if_neg hmem]
    show x ∈ (wsSend st _).subscribedSymbols ++ [toUpperCase k] ↔ _
    rw [wsSend_subscribedSymbols]
    simp [List.mem_append]

theorem mem_subscribed_onPriceUpdate (st : FinnhubState) (k x : String)
    (hconn : st.isConnected = true) :
    x ∈ (onPriceUpdate st k).subscribedSymbols ↔
      x ∈ st.subscribedSymbols ∨ x = toUpperCase k := by
  unfold onPriceUpdate
  dsimp only
  by_cases hmem : toUpperCase k ∈ st.subscribedSymbols
  · rw [if_neg (fun hc => hc hmem)]
    constructor
    · exact Or.inl
    · rintro (h | h)
      · exact h
      · rw [h]
        exact hmem
  · rw [if_pos hmem]
    rw [mem_subscribed_subscribeToSymbol]
    · rw [toUpperCase_idem]
    · exact hconn

theorem foldl_onPriceUpdate_isConnected (K : List String)
    (fin : FinnhubState) :
    (K.foldl (fun f s => onPriceUpdate f s) fin).isConnected =
      fin.isConnected := by
  induction K generalizing fin with
  | nil => rfl
  | cons k rest ih =>
    rw [List.foldl_cons, ih, onPriceUpdate_isConnected]

theorem mem_subscribed_foldl_onPriceUpdate (K : List String)
    (fin : FinnhubState) (x : String) (hconn : fin.isConnected = true) :
    x ∈ (K.foldl (fun f s => onPriceUpdate f s) fin).subscribedSymbols ↔
      x ∈ fin.subscribedSymbols ∨ x ∈ K.map toUpperCase := by
  induction K generalizing fin with
  | nil => simp
  | cons k rest ih =>
    rw [List.foldl_cons,
        ih (onPriceUpdate fin k)
          (by rw [onPriceUpdate_isConnected]; exact hconn),
        mem_subscribed_onPriceUpdate fin k x hconn]
    simp only [List.map_cons, List.mem_cons]
    tauto

theorem subscribeToSymbol_sentMessages (st : FinnhubState) (k : String) :
    ∃ new, (subscribeToSymbol st k).sentMessages = st.sentMessages ++ new ∧
      ∀ m ∈ new, ∃ u, m = WsMsg.subscribe u := by
  unfold subscribeToSymbol wsSend
  dsimp only
  by_cases hc : st.isConnected = true
  · by_cases hmem : toUpperCase k ∈ st.subscribedSymbols
    · refine ⟨[], ?_, by simp⟩
      simp [hc, hmem]
    · refine ⟨[WsMsg.subscribe (toUpperCase k)], ?_, ?_⟩
      · simp [hc, hmem]
      · intro m hm
        rw [List.mem_singleton] at hm
        exact ⟨toUpperCase k, hm⟩
  · refine ⟨[], ?_, by simp⟩
    simp [hc]

theorem onPriceUpdate_sentMessages (st : FinnhubState) (k : String) :
    ∃ new, (onPriceUpdate st k).sentMessages = st.sentMessages ++ new ∧
      ∀ m ∈ new, ∃ u, m = WsMsg.subscribe u := by
  unfold onPriceUpdate
  dsimp only
  split
  · exact subscribeToSymbol_sentMessages _ _
  · exact ⟨[], by simp, by simp⟩

theorem foldl_onPriceUpdate_sentMessages (K : List String)
    (fin : FinnhubState) :
    ∃ new, (K.foldl (fun f s => onPriceUpdate f s) fin).sentMessages =
        fin.sentMessages ++ new ∧
      ∀ m ∈ new, ∃ u, m = WsMsg.subscribe u := by
  induction K generalizing fin with
  | nil => exact ⟨[], by simp, by simp⟩
  | cons k rest ih =>
    obtain ⟨n1, h1, h1s⟩ := onPriceUpdate_sentMessages fin k
    obtain ⟨n2, h2, h2s⟩ := ih (onPriceUpdate fin k)
    refine ⟨n1 ++ n2, ?_, ?_⟩
    · rw [List.foldl_cons, h2, h1, List.append_assoc]
    · intro m hm
      rcases List.mem_append.mp hm with h | h
      · exact h1s m h
      · exact h2s m h

theorem isSome_mapGet_groupStep (m : List (String × List Alert)) (a : Alert)
    (x : String) :
    (mapGet (groupStep m a) x).isSome ↔
      (mapGet m x).isSome ∨ x = toUpperCase a.symbol := by
  unfold groupStep
  dsimp only
  by_cases hk : (mapGet m (toUpperCase a.symbol)).isSome
  · rw [if_pos hk]
    cases hm : mapGet m (toUpperCase a.symbol) with
    | none =>
      rw [hm] at hk
      simp at hk
    | some bucket =>
      dsimp only
      by_cases hx : x = toUpperCase a.symbol
      · subst hx
        rw [mapGet_mapSet_self]
        simp [hm]
      · rw [mapGet_mapSet_ne _ _ _ _ hx]
        simp [hx]
  · rw [if_neg hk]
    rw [mapGet_mapSet_self]
    by_cases hx : x = toUpperCase a.symbol
    · subst hx
      rw [mapGet_mapSet_self]
      simp
    · rw [mapGet_mapSet_ne _ _ _ _ hx, mapGet_mapSet_ne _ _ _ _ hx]
      simp [hx]

theorem isSome_mapGet_foldl_groupStep (fetched : List Alert)
    (m : List (String × List Alert)) (x : String) :
    (mapGet (fetched.foldl groupStep m) x).isSome ↔
      (mapGet m x).isSome ∨
        x ∈ fetched.map (fun a => toUpperCase a.symbol) := by
  induction fetched generalizing m with
  | nil => simp
  | cons a rest ih =>
    rw [List.foldl_cons, ih (groupStep m a), isSome_mapGet_groupStep]
    simp only [List.map_cons, List.mem_cons]
    tauto

/-- C4 counterexample: starting from an empty connected system, AddAlert
for BTC establishes the upstream subscription, and a Reload whose fetched
alert set is empty empties the Subscription Index — but the adapter is
still subscribed to BTC (and no unsubscribe message was ever sent), so the
adapter's subscribed-symbol set does not equal the index's key set and the
reload did not remove the dropped symbol's upstream subscription, contrary
to the claim. -/
theorem c4_claim_counterexample :
    "BTC" ∈
      (refreshAlerts (addAlert sysConn alertBTC) []).finnhub.subscribedSymbols ∧
    mapGet (refreshAlerts (addAlert sysConn alertBTC) []).activeAlerts
      "BTC" = none ∧
    (refreshAlerts (addAlert sysConn alertBTC) []).finnhub.sentMessages =
      [WsMsg.subscribe "BTC"] := by
  refine ⟨?_, ?_, ?_⟩ <;> decide

/-- C4 (amended): with the connection open, after a Reload the
Subscription Index's keys are exactly the canonical symbols of the fetched
(enabled) alerts, and the adapter's subscribed-symbol set is the union of
its previous value and the (canonicalized) new key set — Reload subscribes
newly present symbols but never unsubscribes dropped ones (it emits only
subscribe messages), so after a Reload that drops a symbol the adapter's
subscribed set strictly contains the index's key set instead of equalling
it. -/
theorem c4_reload_subscription_behavior (sys : Sys) (fetched : List Alert)
    (hconn : sys.finnhub.isConnected = true) :
    (∀ x, (mapGet (refreshAlerts sys fetched).activeAlerts x).isSome ↔
        x ∈ fetched.map (fun a => toUpperCase a.symbol)) ∧
    (∀ x, x ∈ (refreshAlerts sys fetched).finnhub.subscribedSymbols ↔
        x ∈ sys.finnhub.subscribedSymbols ∨
        x ∈ (mapKeys (refreshAlerts sys fetched).activeAlerts).map
              toUpperCase) ∧
    (∃ new, (refreshAlerts sys fetched).finnhub.sentMessages =
        sys.finnhub.sentMessages ++ new ∧
      ∀ m ∈ new, ∃ u, m = WsMsg.subscribe u) := by
  have hAA : (refreshAlerts sys fetched).activeAlerts =
      fetched.foldl groupStep [] := rfl
  have hFin : (refreshAlerts sys fetched).finnhub =
      (mapKeys (fetched.foldl groupStep [])).foldl
        (fun f s => onPriceUpdate f s) sys.finnhub := rfl
  refine ⟨?_, ?_, ?_⟩
  · intro x
    rw [hAA, isSome_mapGet_foldl_groupStep]
    simp [mapGet]
  · intro x
    rw [hFin, hAA,
        mem_subscribed_foldl_onPriceUpdate _ _ _ hconn]
  · rw [hFin]
    exact foldl_onPriceUpdate_sentMessages _ _

theorem c4_witness :
    ((mapGet (refreshAlerts sysConn [alertBTC]).activeAlerts "BTC").isSome :
      Prop) :=
  ((c4_reload_subscription_behavior sysConn [alertBTC] rfl).1 "BTC").mpr
    (by decide)
